import Mathlib

/-!
Verification of the polling utilities in `e2e/utils/Utilities.ts`
(`waitUntil`, `waitForElementToBeEnabled`, `waitForElementToStopMoving`).

The embedding models cooperative time by an injected clock: the clock is an
integer number of milliseconds, each condition/attribute evaluation takes zero
time, and each suspension of duration `d` advances the clock by exactly `d`.
Every suspension performed during a call is recorded in a trace (`sleeps`), so
that "the implementation yields once per iteration" becomes a statement about
the trace.  Loops are modelled with explicit fuel: a run returns `none` when
the fuel is exhausted before the loop terminates, and `some r` with the
outcome, final clock, number of evaluations and the suspension trace
otherwise.  Caller-supplied fallible functions are modelled as
`Nat → Except ε Bool` (the value of the n-th invocation), attribute fetches of
the stability poller as `Nat → Except ε ElementAttributes`.
-/

/-- Errors with which a poll can reject: either an `Error` thrown by the
poller itself (carrying its message string) or an error raised by the
caller-supplied condition / attribute fetch, propagated unwrapped. -/
inductive PollError (ε : Type) where
  | err (msg : String)
  | propagated (e : ε)
deriving Repr

/-- The observable result of a terminating run of a poller: the outcome
(success or a `PollError`), the clock value at return/throw, the number of
condition/sample evaluations performed, and the durations of the suspensions
performed, in order. -/
structure PollRun (ε : Type) where
  outcome : Except (PollError ε) Unit
  clock : Int
  calls : Nat
  sleeps : List Int
deriving Repr

namespace Utilities

/-- Message of the error thrown by `waitUntil` on timeout:
`Condition not met within ${timeout}ms.` -/
def condTimeoutMessage (timeout : Int) : String :=
  "Condition not met within " ++ toString timeout ++ "ms."

/-- Message of the error thrown by `waitForElementToBeEnabled` on timeout. -/
def notEnabledMessage : String := "Element is not enabled"

/-- Message of the error thrown by `waitForElementToStopMoving` on timeout. -/
def notStableMessage : String := "Element did not become stable in time"

/-- The fixed fallback delay of `waitForElementToStopMoving`
(`const fallBackTimeout = 2000`). -/
def fallBackTimeout : Int := 2000

/-- Loop body of `Utilities.waitUntil`.  Mirrors the source:
`while (true) { const result = await condition(); if (result === true) return;
const currentTime = Date.now(); if (currentTime >= endTime) throw ...;
const remainingTime = endTime - currentTime;
const waitTime = Math.min(interval, remainingTime);
await asyncSetTimeout(waitTime, ...); }`.
`endTime` is the deadline computed once by the wrapper; `calls`, `clock` and
`sleeps` thread the observable state. -/
def waitUntilGo {ε : Type} (condition : Nat → Except ε Bool)
    (interval endTime timeout : Int) (calls : Nat) (clock : Int)
    (sleeps : List Int) : Nat → Option (PollRun ε)
  | 0 => none
  | fuel + 1 =>
    match condition calls with
    | .error e => some ⟨.error (.propagated e), clock, calls + 1, sleeps⟩
    | .ok true => some ⟨.ok (), clock, calls + 1, sleeps⟩
    | .ok false =>
      let currentTime := clock
      if endTime ≤ currentTime then
        some ⟨.error (.err (condTimeoutMessage timeout)), currentTime,
          calls + 1, sleeps⟩
      else
        let remainingTime := endTime - currentTime
        let waitTime := min interval remainingTime
        waitUntilGo condition interval endTime timeout (calls + 1)
          (currentTime + waitTime) (sleeps ++ [waitTime]) fuel

/-- `Utilities.waitUntil(condition, { interval, timeout })`, started at clock
value `startTime`.  Computes `endTime = startTime + timeout` once and enters
the loop. -/
def waitUntil {ε : Type} (condition : Nat → Except ε Bool)
    (interval timeout startTime : Int) (fuel : Nat) : Option (PollRun ε) :=
  let endTime := startTime + timeout
  waitUntilGo condition interval endTime timeout 0 startTime [] fuel

/-- Loop body of `Utilities.waitForElementToBeEnabled`.  Mirrors the source:
`while (Date.now() - startTime < timeout) { isEnabled = (await ...).enabled;
if (isEnabled) break; await new Promise(r => setTimeout(r, interval)); }
if (!isEnabled) throw new Error('Element is not enabled');`. -/
def waitForEnabledGo {ε : Type} (attrs : Nat → Except ε Bool)
    (interval startTime timeout : Int) (calls : Nat) (clock : Int)
    (sleeps : List Int) : Nat → Option (PollRun ε)
  | 0 => none
  | fuel + 1 =>
    if clock - startTime < timeout then
      match attrs calls with
      | .error e => some ⟨.error (.propagated e), clock, calls + 1, sleeps⟩
      | .ok true => some ⟨.ok (), clock, calls + 1, sleeps⟩
      | .ok false =>
        waitForEnabledGo attrs interval startTime timeout (calls + 1)
          (clock + interval) (sleeps ++ [interval]) fuel
    else
      some ⟨.error (.err notEnabledMessage), clock, calls, sleeps⟩

/-- `Utilities.waitForElementToBeEnabled(element, timeout, interval)`, with
the element's successive `enabled` attribute reads given by `attrs` and the
call starting at clock value `startTime`. -/
def waitForElementToBeEnabled {ε : Type} (attrs : Nat → Except ε Bool)
    (timeout interval startTime : Int) (fuel : Nat) : Option (PollRun ε) :=
  waitForEnabledGo attrs interval startTime timeout 0 startTime [] fuel

/-- The `frame` entry of a Detox attributes object: `x` and `y` are present
and numeric (`some`) or not (`none`), mirroring the
`typeof attributes.frame.x === 'number'` checks. -/
structure Frame where
  x : Option Int
  y : Option Int
deriving Repr

/-- A fetched attributes object, as far as `getPosition` inspects it. -/
structure ElementAttributes where
  frame : Option Frame
deriving Repr

/-- `getPosition` from `waitForElementToStopMoving`: returns `{x, y}` when the
fetch succeeded and the frame's `x` and `y` are numbers, and `null` when the
fetch threw or the frame data is missing or non-numeric. -/
def getPosition {ε : Type} (fetch : Except ε ElementAttributes) :
    Option (Int × Int) :=
  match fetch with
  | .error _ => none
  | .ok attributes =>
    match attributes.frame with
    | none => none
    | some frame =>
      match frame.x, frame.y with
      | some x, some y => some (x, y)
      | _, _ => none

/-- The stability comparison of `waitForElementToStopMoving`:
`lastPosition && position.x === lastPosition.x &&
position.y === lastPosition.y` (false when there is no previous
baseline). -/
def samePosition (position : Int × Int)
    (lastPosition : Option (Int × Int)) : Bool :=
  match lastPosition with
  | some lp => position.1 == lp.1 && position.2 == lp.2
  | none => false

/-- Loop body of `Utilities.waitForElementToStopMoving`.  Mirrors the source:
`while (Date.now() - start < timeout) { const position = await getPosition(el);
if (!position) { await sleep(fallBackTimeout); return; }
if (lastPosition && position.x === lastPosition.x && position.y ===
lastPosition.y) { stableChecks += 1; if (stableChecks >= stableCount) return; }
else { lastPosition = position; stableChecks = 1; }
await sleep(interval); } throw new Error('Element did not become stable in
time');`.  `sample` gives the position obtained at the n-th iteration. -/
def stopMovingGo (sample : Nat → Option (Int × Int))
    (interval timeout : Int) (stableCount : Nat) (startTime : Int)
    (lastPosition : Option (Int × Int)) (stableChecks : Nat) (calls : Nat)
    (clock : Int) (sleeps : List Int) : Nat → Option (PollRun Empty)
  | 0 => none
  | fuel + 1 =>
    if clock - startTime < timeout then
      match sample calls with
      | none =>
        some ⟨.ok (), clock + fallBackTimeout, calls + 1,
          sleeps ++ [fallBackTimeout]⟩
      | some position =>
        if samePosition position lastPosition then
          if stableCount ≤ stableChecks + 1 then
            some ⟨.ok (), clock, calls + 1, sleeps⟩
          else
            stopMovingGo sample interval timeout stableCount startTime
              lastPosition (stableChecks + 1) (calls + 1) (clock + interval)
              (sleeps ++ [interval]) fuel
        else
          stopMovingGo sample interval timeout stableCount startTime
            (some position) 1 (calls + 1) (clock + interval)
            (sleeps ++ [interval]) fuel
    else
      some ⟨.error (.err notStableMessage), clock, calls, sleeps⟩

/-- `Utilities.waitForElementToStopMoving(element, { timeout, interval,
stableCount })`, with the element's successive attribute fetches given by
`attrFetch` and the call starting at clock value `startTime`. -/
def waitForElementToStopMoving {ε : Type}
    (attrFetch : Nat → Except ε ElementAttributes)
    (timeout interval : Int) (stableCount : Nat) (startTime : Int)
    (fuel : Nat) : Option (PollRun Empty) :=
  stopMovingGo (fun n => getPosition (attrFetch n)) interval timeout
    stableCount startTime none 0 0 startTime [] fuel

/-- ConditionPoller loop as described by the specification, for the
refinement claim about `waitUntil`.  Transcribed from the spec's words:
"Loop: invoke `condition()`; if it resolves true, return success immediately
(no further waiting).  If false, check current time against `endTime`; if at
or past deadline, fail with a `ConditionTimeoutError` carrying the configured
timeout value.  Otherwise compute `waitTime = min(interval, endTime - now)`
and suspend the calling task for `waitTime` before retrying." -/
def specConditionPollerLoop {ε : Type} (condition : Nat → Except ε Bool)
    (interval deadline timeout : Int) (calls : Nat) (now : Int)
    (sleeps : List Int) : Nat → Option (PollRun ε)
  | 0 => none
  | fuel + 1 =>
    match condition calls with
    | .error e => some ⟨.error (.propagated e), now, calls + 1, sleeps⟩
    | .ok true => some ⟨.ok (), now, calls + 1, sleeps⟩
    | .ok false =>
      if now ≥ deadline then
        some ⟨.error (.err (condTimeoutMessage timeout)), now, calls + 1,
          sleeps⟩
      else
        let waitTime := min interval (deadline - now)
        specConditionPollerLoop condition interval deadline timeout
          (calls + 1) (now + waitTime) (sleeps ++ [waitTime]) fuel

/-- ConditionPoller as described by the specification: "compute
`endTime = now + timeout`" once at call start (the deadline is immutable for
the call's lifetime), then run the loop. -/
def specConditionPoller {ε : Type} (condition : Nat → Except ε Bool)
    (interval timeout startTime : Int) (fuel : Nat) : Option (PollRun ε) :=
  specConditionPollerLoop condition interval (startTime + timeout) timeout 0
    startTime [] fuel

/-- A condition that always resolves `true`. -/
def alwaysTrueCondition : Nat → Except Empty Bool := fun _ => .ok true

/-- A condition that always resolves `false`. -/
def alwaysFalseCondition : Nat → Except Empty Bool := fun _ => .ok false

theorem waitUntilGo_eq_spec {ε : Type} (condition : Nat → Except ε Bool)
    (interval deadline timeout : Int) :
    ∀ (fuel calls : Nat) (clock : Int) (sleeps : List Int),
      waitUntilGo condition interval deadline timeout calls clock sleeps
          fuel =
        specConditionPollerLoop condition interval deadline timeout calls
          clock sleeps fuel := by
  intro fuel
  induction fuel with
  | zero => intro calls clock sleeps; rfl
  | succ n ih =>
    intro calls clock sleeps
    simp only [waitUntilGo, specConditionPollerLoop]
    cases condition calls with
    | error e => rfl
    | ok b =>
      cases b with
      | true => rfl
      | false =>
        by_cases h : deadline ≤ clock
        · simp [h]
        · simp [h, ih]

/-- C1: for every condition function, interval, timeout and start time,
`waitUntil` computes the deadline `endTime = start + timeout` exactly once at
call start and then loops exactly as the specification describes: a true
result returns success immediately, a false result at or past the deadline
throws the error with message `Condition not met within <timeout>ms.`, and
otherwise the call suspends for `min(interval, endTime - now)` and retries,
with the deadline never recomputed.  Stated as: `waitUntil` coincides with
the poller transcribed from the specification's words. -/
theorem C1_waitUntil_refines_spec {ε : Type} (condition : Nat → Except ε Bool)
    (interval timeout startTime : Int) (fuel : Nat) :
    waitUntil condition interval timeout startTime fuel =
      specConditionPoller condition interval timeout startTime fuel :=
  waitUntilGo_eq_spec condition interval (startTime + timeout) timeout fuel 0
    startTime []

/-- C7: if the condition resolves true on its first invocation, `waitUntil`
resolves successfully at the start clock, with exactly one condition
invocation and an empty suspension trace (zero suspensions). -/
theorem C7_first_true_resolves_immediately {ε : Type}
    (condition : Nat → Except ε Bool) (interval timeout startTime : Int)
    (fuel : Nat) (h : condition 0 = .ok true) :
    waitUntil condition interval timeout startTime (fuel + 1) =
      some ⟨.ok (), startTime, 1, []⟩ := by
  simp [waitUntil, waitUntilGo, h]

/-- Witness for C7 at a concrete input. -/
theorem C7_witness :
    waitUntil alwaysTrueCondition 100 1000 0 5 = some ⟨.ok (), 0, 1, []⟩ :=
  C7_first_true_resolves_immediately alwaysTrueCondition 100 1000 0 4 rfl

/-- C10: for every timeout at most 0, `waitForElementToBeEnabled` throws the
`Element is not enabled` error with zero attribute evaluations and zero
suspensions, because the deadline check guards the loop body; by contrast
`waitUntil` with timeout 0 still performs at least one condition
evaluation. -/
theorem C10_nonpositive_timeout_skips_sampling {ε : Type}
    (attrs condition : Nat → Except ε Bool)
    (timeout interval startTime interval2 startTime2 : Int) (fuel fuel2 : Nat)
    (ht : timeout ≤ 0) :
    waitForElementToBeEnabled attrs timeout interval startTime (fuel + 1) =
      some ⟨.error (.err notEnabledMessage), startTime, 0, []⟩ ∧
    ∃ res, waitUntil condition interval2 0 startTime2 (fuel2 + 1) =
      some res ∧ 1 ≤ res.calls := by
  constructor
  · have h : ¬ ((0 : Int) < timeout) := by omega
    simp [waitForElementToBeEnabled, waitForEnabledGo, h]
  · cases h : condition 0 with
    | error e =>
      exact ⟨⟨.error (.propagated e), startTime2, 1, []⟩,
        by simp [waitUntil, waitUntilGo, h], le_refl 1⟩
    | ok b =>
      cases b with
      | true =>
        exact ⟨⟨.ok (), startTime2, 1, []⟩,
          by simp [waitUntil, waitUntilGo, h], le_refl 1⟩
      | false =>
        refine ⟨⟨.error (.err (condTimeoutMessage 0)), startTime2, 1, []⟩,
          ?_, le_refl 1⟩
        simp [waitUntil, waitUntilGo, h]

/-- Witness for C10 at a concrete input. -/
theorem C10_witness :
    (waitForElementToBeEnabled alwaysFalseCondition 0 100 0 3 =
      some ⟨.error (.err notEnabledMessage), 0, 0, []⟩) ∧
    ∃ res, waitUntil alwaysFalseCondition 100 0 0 3 = some res ∧
      1 ≤ res.calls :=
  C10_nonpositive_timeout_skips_sampling alwaysFalseCondition
    alwaysFalseCondition 0 100 0 100 0 2 2 (by decide)

/-- A condition that resolves `false` on its first invocation and `true` on
every later one. -/
def falseThenTrueCondition : Nat → Except Empty Bool :=
  fun n => .ok (decide (1 ≤ n))

/-- A condition that resolves `false` on its first invocation and raises the
error `"boom"` on every later one. -/
def failingCondition : Nat → Except String Bool :=
  fun n => if n = 0 then .ok false else .error "boom"

theorem waitUntilGo_sleeps_length {ε : Type} (condition : Nat → Except ε Bool)
    (interval endTime timeout : Int) :
    ∀ (fuel calls : Nat) (clock : Int) (sleeps : List Int) (res : PollRun ε),
      sleeps.length = calls →
      waitUntilGo condition interval endTime timeout calls clock sleeps
          fuel = some res →
      res.sleeps.length + 1 = res.calls := by
  intro fuel
  induction fuel with
  | zero => intro calls clock sleeps res hlen h; exact absurd h (by simp [waitUntilGo])
  | succ n ih =>
    intro calls clock sleeps res hlen h
    simp only [waitUntilGo] at h
    cases hc : condition calls with
    | error e =>
      rw [hc] at h
      obtain rfl := (Option.some.inj h).symm
      simp [hlen]
    | ok b =>
      cases b with
      | true =>
        rw [hc] at h
        obtain rfl := (Option.some.inj h).symm
        simp [hlen]
      | false =>
        rw [hc] at h
        by_cases ht : endTime ≤ clock
        · rw [if_pos ht] at h
          obtain rfl := (Option.some.inj h).symm
          simp [hlen]
        · rw [if_neg ht] at h
          exact ih (calls + 1) _ _ res (by simp [hlen]) h

theorem waitUntilGo_sleeps_zero {ε : Type} (condition : Nat → Except ε Bool)
    (endTime timeout : Int) :
    ∀ (fuel calls : Nat) (clock : Int) (sleeps : List Int) (res : PollRun ε),
      (∀ d ∈ sleeps, d = 0) →
      waitUntilGo condition 0 endTime timeout calls clock sleeps fuel =
        some res →
      ∀ d ∈ res.sleeps, d = 0 := by
  intro fuel
  induction fuel with
  | zero => intro calls clock sleeps res hz h; exact absurd h (by simp [waitUntilGo])
  | succ n ih =>
    intro calls clock sleeps res hz h
    simp only [waitUntilGo] at h
    cases hc : condition calls with
    | error e =>
      rw [hc] at h
      obtain rfl := (Option.some.inj h).symm
      exact hz
    | ok b =>
      cases b with
      | true =>
        rw [hc] at h
        obtain rfl := (Option.some.inj h).symm
        exact hz
      | false =>
        rw [hc] at h
        by_cases ht : endTime ≤ clock
        · rw [if_pos ht] at h
          obtain rfl := (Option.some.inj h).symm
          exact hz
        · rw [if_neg ht] at h
          have hmin : min (0 : Int) (endTime - clock) = 0 :=
            min_eq_left (by omega)
          refine ih (calls + 1) _ _ res ?_ h
          intro d hd
          rcases List.mem_append.1 hd with hd | hd
          · exact hz d hd
          · rw [List.mem_singleton] at hd
            omega

/-- C8: in every run of `waitUntil`, exactly one suspension is performed
between consecutive condition evaluations (the suspension trace has exactly
one entry fewer than the number of evaluations, whichever way the run ends),
and when `interval = 0` the suspensions still occur, each with duration 0:
the loop never proceeds from one evaluation to the next without a recorded
suspension. -/
theorem C8_one_suspension_per_iteration {ε : Type}
    (condition : Nat → Except ε Bool) (interval timeout startTime : Int)
    (fuel : Nat) (res : PollRun ε)
    (h : waitUntil condition interval timeout startTime fuel = some res) :
    res.sleeps.length + 1 = res.calls ∧
    (interval = 0 → ∀ d ∈ res.sleeps, d = 0) := by
  constructor
  · exact waitUntilGo_sleeps_length condition interval (startTime + timeout)
      timeout fuel 0 startTime [] res (by simp) h
  · intro hi
    subst hi
    exact waitUntilGo_sleeps_zero condition (startTime + timeout) timeout
      fuel 0 startTime [] res (by simp) h

/-- Witness for C8 at a concrete input with `interval = 0`. -/
theorem C8_witness :
    [(0 : Int)].length + 1 = 2 ∧
    ((0 : Int) = 0 → ∀ d ∈ [(0 : Int)], d = 0) :=
  C8_one_suspension_per_iteration falseThenTrueCondition 0 10 0 3
    ⟨.ok (), 0, 2, [0]⟩ rfl

theorem waitUntilGo_error_propagates {ε : Type}
    (condition : Nat → Except ε Bool) (interval endTime timeout : Int) :
    ∀ (fuel calls : Nat) (clock : Int) (sleeps : List Int) (res : PollRun ε),
      waitUntilGo condition interval endTime timeout calls clock sleeps
          fuel = some res →
      ∀ (k : Nat) (e : ε), calls ≤ k → k < res.calls →
        condition k = .error e →
        res.outcome = .error (.propagated e) ∧ res.calls = k + 1 := by
  intro fuel
  induction fuel with
  | zero => intro calls clock sleeps res h; exact absurd h (by simp [waitUntilGo])
  | succ n ih =>
    intro calls clock sleeps res h k e hck hkr hke
    simp only [waitUntilGo] at h
    cases hc : condition calls with
    | error e2 =>
      rw [hc] at h
      obtain rfl := (Option.some.inj h).symm
      have hk : k = calls := by simp at hkr; omega
      subst hk
      rw [hke] at hc
      cases hc
      exact ⟨rfl, rfl⟩
    | ok b =>
      cases b with
      | true =>
        rw [hc] at h
        obtain rfl := (Option.some.inj h).symm
        have hk : k = calls := by simp at hkr; omega
        subst hk
        rw [hke] at hc
        cases hc
      | false =>
        rw [hc] at h
        by_cases ht : endTime ≤ clock
        · rw [if_pos ht] at h
          obtain rfl := (Option.some.inj h).symm
          have hk : k = calls := by simp at hkr; omega
          subst hk
          rw [hke] at hc
          cases hc
        · rw [if_neg ht] at h
          have hck2 : calls + 1 ≤ k := by
            rcases Nat.eq_or_lt_of_le hck with hk | hk
            · subst hk; rw [hke] at hc; cases hc
            · omega
          exact ih (calls + 1) _ _ res h k e hck2 hkr hke

theorem waitForEnabledGo_error_propagates {ε : Type}
    (attrs : Nat → Except ε Bool) (interval startTime timeout : Int) :
    ∀ (fuel calls : Nat) (clock : Int) (sleeps : List Int) (res : PollRun ε),
      waitForEnabledGo attrs interval startTime timeout calls clock sleeps
          fuel = some res →
      ∀ (k : Nat) (e : ε), calls ≤ k → k < res.calls →
        attrs k = .error e →
        res.outcome = .error (.propagated e) ∧ res.calls = k + 1 := by
  intro fuel
  induction fuel with
  | zero => intro calls clock sleeps res h; exact absurd h (by simp [waitForEnabledGo])
  | succ n ih =>
    intro calls clock sleeps res h k e hck hkr hke
    simp only [waitForEnabledGo] at h
    by_cases hd : clock - startTime < timeout
    · rw [if_pos hd] at h
      cases hc : attrs calls with
      | error e2 =>
        rw [hc] at h
        obtain rfl := (Option.some.inj h).symm
        have hk : k = calls := by simp at hkr; omega
        subst hk
        rw [hke] at hc
        cases hc
        exact ⟨rfl, rfl⟩
      | ok b =>
        cases b with
        | true =>
          rw [hc] at h
          obtain rfl := (Option.some.inj h).symm
          have hk : k = calls := by simp at hkr; omega
          subst hk
          rw [hke] at hc
          cases hc
        | false =>
          rw [hc] at h
          have hck2 : calls + 1 ≤ k := by
            rcases Nat.eq_or_lt_of_le hck with hk | hk
            · subst hk; rw [hke] at hc; cases hc
            · omega
          exact ih (calls + 1) _ _ res h k e hck2 hkr hke
    · rw [if_neg hd] at h
      obtain rfl := (Option.some.inj h).symm
      simp at hkr
      omega

/-- C6: if the caller-supplied fallible function raises error `e` at an
invocation that the poll actually performs (both for `waitUntil` and for
`waitForElementToBeEnabled`), the call rejects with exactly that error,
unwrapped (`propagated e`, never a timeout error), and aborts at that
invocation: no further invocation occurs. -/
theorem C6_supplied_error_propagates_unwrapped {ε : Type}
    (condition : Nat → Except ε Bool)
    (interval timeout startTime timeoutE intervalE startTimeE : Int)
    (fuel fuelE k : Nat) (e : ε) (hke : condition k = .error e)
    (resU resE : PollRun ε)
    (hU : waitUntil condition interval timeout startTime fuel = some resU)
    (hkU : k < resU.calls)
    (hE : waitForElementToBeEnabled condition timeoutE intervalE startTimeE
      fuelE = some resE)
    (hkE : k < resE.calls) :
    (resU.outcome = .error (.propagated e) ∧ resU.calls = k + 1) ∧
    (resE.outcome = .error (.propagated e) ∧ resE.calls = k + 1) :=
  ⟨waitUntilGo_error_propagates condition interval (startTime + timeout)
      timeout fuel 0 startTime [] resU hU k e (Nat.zero_le k) hkU hke,
    waitForEnabledGo_error_propagates condition intervalE startTimeE timeoutE
      fuelE 0 startTimeE [] resE hE k e (Nat.zero_le k) hkE hke⟩

/-- Witness for C6 at a concrete input. -/
theorem C6_witness :
    ((⟨.error (.propagated "boom"), 100, 2, [100]⟩ : PollRun String).outcome =
        .error (.propagated "boom") ∧
      (⟨.error (.propagated "boom"), 100, 2, [100]⟩ : PollRun String).calls =
        1 + 1) ∧
    ((⟨.error (.propagated "boom"), 100, 2, [100]⟩ : PollRun String).outcome =
        .error (.propagated "boom") ∧
      (⟨.error (.propagated "boom"), 100, 2, [100]⟩ : PollRun String).calls =
        1 + 1) :=
  C6_supplied_error_propagates_unwrapped failingCondition 100 1000 0 1000 100
    0 5 5 1 "boom" rfl ⟨.error (.propagated "boom"), 100, 2, [100]⟩
    ⟨.error (.propagated "boom"), 100, 2, [100]⟩ rfl (by decide) rfl
    (by decide)

theorem waitUntilGo_zero_interval_diverges :
    ∀ (fuel calls : Nat) (sleeps : List Int),
      waitUntilGo alwaysFalseCondition 0 5 5 calls 0 sleeps fuel = none := by
  intro fuel
  induction fuel with
  | zero => intro calls sleeps; rfl
  | succ n ih =>
    intro calls sleeps
    have h5 : ¬ ((5 : Int) ≤ 0) := by decide
    simp only [waitUntilGo, alwaysFalseCondition, if_neg h5]
    have hmin : min (0 : Int) (5 - 0) = 0 := by decide
    rw [hmin]
    simpa using ih (calls + 1) (sleeps ++ [0])

/-- Counterexample to C3 as stated: with `interval = 0` and `timeout = 5`
and a condition that always resolves false, each suspension has duration
`min(0, endTime - now) = 0`, so under the claim's clock model (each
suspension advances the clock by exactly its duration, evaluations take zero
time) the clock never advances and `waitUntil` never throws: no amount of
fuel produces a terminating run. -/
theorem C3_counterexample :
    ¬ ∃ (fuel : Nat) (res : PollRun Empty),
        waitUntil alwaysFalseCondition 0 5 0 fuel = some res := by
  rintro ⟨fuel, res, h⟩
  have hd := waitUntilGo_zero_interval_diverges fuel 0 []
  simp only [waitUntil] at h
  norm_num at h
  rw [hd] at h
  cases h

theorem waitUntilGo_false_times_out {ε : Type}
    (condition : Nat → Except ε Bool)
    (hcond : ∀ n, condition n = .ok false) (interval endTime timeout : Int)
    (hi : 0 < interval) :
    ∀ (n : Nat) (clock : Int), (endTime - clock).toNat ≤ n →
      clock ≤ endTime → ∀ (calls : Nat) (sleeps : List Int),
      ∃ (fuel : Nat) (res : PollRun ε),
        waitUntilGo condition interval endTime timeout calls clock sleeps
            fuel = some res ∧
          res.outcome = .error (.err (condTimeoutMessage timeout)) ∧
          res.clock = endTime := by
  intro n
  induction n with
  | zero =>
    intro clock hn hle calls sleeps
    have hend : endTime ≤ clock := by omega
    refine ⟨1, ⟨.error (.err (condTimeoutMessage timeout)), clock,
      calls + 1, sleeps⟩, ?_, rfl, by simp; omega⟩
    simp [waitUntilGo, hcond calls, hend]
  | succ n ih =>
    intro clock hn hle calls sleeps
    by_cases hend : endTime ≤ clock
    · refine ⟨1, ⟨.error (.err (condTimeoutMessage timeout)), clock,
        calls + 1, sleeps⟩, ?_, rfl, by simp; omega⟩
      simp [waitUntilGo, hcond calls, hend]
    · have hlt : clock < endTime := lt_of_le_of_ne hle (fun h => hend h.ge)
      have hwpos : 0 < min interval (endTime - clock) := by
        rcases min_cases interval (endTime - clock) with ⟨h1, _⟩ | ⟨h1, _⟩ <;>
          omega
      have hwle : min interval (endTime - clock) ≤ endTime - clock :=
        min_le_right _ _
      obtain ⟨fuel, res, hrun, hout, hclk⟩ :=
        ih (clock + min interval (endTime - clock)) (by omega) (by omega)
          (calls + 1) (sleeps ++ [min interval (endTime - clock)])
      refine ⟨fuel + 1, res, ?_, hout, hclk⟩
      simp only [waitUntilGo, hcond calls, if_neg hend]
      exact hrun

/-- C3 (amended): for all `timeout ≥ 0` and `interval ≥ 0` such that
`interval > 0` or `timeout = 0`, if the condition always resolves false then
`waitUntil` terminates by throwing the timeout error, and — modeling time by
the injected clock where each suspension of duration `d` advances the clock
by exactly `d` and evaluations take zero time — the clock at the throw is at
least `timeout` and at most `timeout + interval` after the start time.  (As
stated, with `interval = 0` and `timeout > 0` the call never throws; see the
counterexample.) -/
theorem C3_always_false_times_out_within_bounds {ε : Type}
    (condition : Nat → Except ε Bool) (interval timeout startTime : Int)
    (hcond : ∀ n, condition n = .ok false) (ht : 0 ≤ timeout)
    (hi : 0 ≤ interval) (hnz : 0 < interval ∨ timeout = 0) :
    ∃ (fuel : Nat) (res : PollRun ε),
      waitUntil condition interval timeout startTime fuel = some res ∧
        res.outcome = .error (.err (condTimeoutMessage timeout)) ∧
        startTime + timeout ≤ res.clock ∧
        res.clock ≤ startTime + timeout + interval := by
  rcases hnz with hpos | hzero
  · obtain ⟨fuel, res, hrun, hout, hclk⟩ :=
      waitUntilGo_false_times_out condition hcond interval
        (startTime + timeout) timeout hpos
        (startTime + timeout - startTime).toNat startTime (le_refl _)
        (by omega) 0 []
    exact ⟨fuel, res, hrun, hout, by omega, by omega⟩
  · subst hzero
    refine ⟨1, ⟨.error (.err (condTimeoutMessage 0)), startTime, 1, []⟩,
      ?_, rfl, ?_, ?_⟩
    · simp [waitUntil, waitUntilGo, hcond 0]
    · simp
    · simp
      omega

/-- Witness for the amended C3 at a concrete input. -/
theorem C3_witness :
    ∃ (fuel : Nat) (res : PollRun Empty),
      waitUntil alwaysFalseCondition 1 3 0 fuel = some res ∧
        res.outcome = .error (.err (condTimeoutMessage 3)) ∧
        (0 : Int) + 3 ≤ res.clock ∧ res.clock ≤ (0 : Int) + 3 + 1 :=
  C3_always_false_times_out_within_bounds alwaysFalseCondition 1 3 0
    (fun n => rfl) (by decide) (by decide) (Or.inl (by decide))

/-- An attribute sequence that reads `false` twice and then `true`
forever. -/
def enabledAttrsSeq : Nat → Except Empty Bool :=
  fun n => .ok (decide (2 ≤ n))

/-- C5: `waitForElementToBeEnabled` repeatedly reads the `enabled`
attribute: the loop resolves successfully as soon as a read yields true;
after a false read it suspends for the full fixed `interval` — the appended
suspension is `interval` itself, independent of the remaining time before
the deadline, unlike `waitUntil`'s `min(interval, endTime - now)` — and once
the deadline has elapsed it throws the `Element is not enabled` error. -/
theorem C5_enabled_polls_at_fixed_interval :
    (∀ (ε : Type) (attrs : Nat → Except ε Bool)
      (timeout interval startTime : Int) (fuel : Nat),
      waitForElementToBeEnabled attrs timeout interval startTime fuel =
        waitForEnabledGo attrs interval startTime timeout 0 startTime []
          fuel) ∧
    (∀ (ε : Type) (attrs : Nat → Except ε Bool)
      (interval startTime timeout : Int) (calls : Nat) (clock : Int)
      (sleeps : List Int) (fuel : Nat),
      clock - startTime < timeout → attrs calls = .ok true →
      waitForEnabledGo attrs interval startTime timeout calls clock sleeps
          (fuel + 1) =
        some ⟨.ok (), clock, calls + 1, sleeps⟩) ∧
    (∀ (ε : Type) (attrs : Nat → Except ε Bool)
      (interval startTime timeout : Int) (calls : Nat) (clock : Int)
      (sleeps : List Int) (fuel : Nat),
      clock - startTime < timeout → attrs calls = .ok false →
      waitForEnabledGo attrs interval startTime timeout calls clock sleeps
          (fuel + 1) =
        waitForEnabledGo attrs interval startTime timeout (calls + 1)
          (clock + interval) (sleeps ++ [interval]) fuel) ∧
    (∀ (ε : Type) (attrs : Nat → Except ε Bool)
      (interval startTime timeout : Int) (calls : Nat) (clock : Int)
      (sleeps : List Int) (fuel : Nat),
      timeout ≤ clock - startTime →
      waitForEnabledGo attrs interval startTime timeout calls clock sleeps
          (fuel + 1) =
        some ⟨.error (.err notEnabledMessage), clock, calls, sleeps⟩) := by
  refine ⟨fun ε attrs timeout interval startTime fuel => rfl, ?_, ?_, ?_⟩
  · intro ε attrs interval startTime timeout calls clock sleeps fuel h1 h2
    simp only [waitForEnabledGo, if_pos h1, h2]
  · intro ε attrs interval startTime timeout calls clock sleeps fuel h1 h2
    simp only [waitForEnabledGo, if_pos h1, h2]
  · intro ε attrs interval startTime timeout calls clock sleeps fuel h1
    have h2 : ¬ (clock - startTime < timeout) := by omega
    simp only [waitForEnabledGo, if_neg h2]

/-- Witness for C5 at concrete inputs: a true read resolves at once, a false
read suspends for the full interval, and a run past the deadline throws. -/
theorem C5_witness :
    (waitForEnabledGo enabledAttrsSeq 100 0 1000 2 200 [100, 100] 3 =
      some ⟨.ok (), 200, 3, [100, 100]⟩) ∧
    (waitForEnabledGo enabledAttrsSeq 100 0 1000 0 0 [] 3 =
      waitForEnabledGo enabledAttrsSeq 100 0 1000 1 100 [100] 2) ∧
    (waitForEnabledGo enabledAttrsSeq 100 0 1000 0 1000 [] 3 =
      some ⟨.error (.err notEnabledMessage), 1000, 0, []⟩) :=
  ⟨C5_enabled_polls_at_fixed_interval.2.1 Empty enabledAttrsSeq 100 0 1000 2
      200 [100, 100] 2 (by decide) rfl,
    C5_enabled_polls_at_fixed_interval.2.2.1 Empty enabledAttrsSeq 100 0 1000
      0 0 [] 2 (by decide) rfl,
    C5_enabled_polls_at_fixed_interval.2.2.2 Empty enabledAttrsSeq 100 0 1000
      0 1000 [] 2 (by decide)⟩

/-- An attributes fetch that always throws. -/
def throwingFetch : Nat → Except Unit ElementAttributes :=
  fun _ => .error ()

/-- C2: in `waitForElementToStopMoving`, whenever an in-deadline sample
attempt yields an unavailable position (`null`, covering a throwing fetch or
a frame with non-numeric coordinates), the call performs exactly one
fallback suspension of `fallBackTimeout = 2000` ms and resolves
successfully, attempting no further sample; in particular a call whose very
first sample is `null` resolves successfully after the single fallback
delay, with exactly one sample attempted. -/
theorem C2_null_sample_resolves_after_fallback :
    (∀ (sample : Nat → Option (Int × Int)) (interval timeout : Int)
      (stableCount : Nat) (startTime : Int)
      (lastPosition : Option (Int × Int)) (stableChecks calls : Nat)
      (clock : Int) (sleeps : List Int) (fuel : Nat),
      clock - startTime < timeout → sample calls = none →
      stopMovingGo sample interval timeout stableCount startTime lastPosition
          stableChecks calls clock sleeps (fuel + 1) =
        some ⟨.ok (), clock + fallBackTimeout, calls + 1,
          sleeps ++ [fallBackTimeout]⟩) ∧
    (∀ (ε : Type) (attrFetch : Nat → Except ε ElementAttributes)
      (timeout interval : Int) (stableCount : Nat) (startTime : Int)
      (fuel : Nat),
      getPosition (attrFetch 0) = none → 0 < timeout →
      waitForElementToStopMoving attrFetch timeout interval stableCount
          startTime (fuel + 1) =
        some ⟨.ok (), startTime + fallBackTimeout, 1, [fallBackTimeout]⟩) := by
  constructor
  · intro sample interval timeout stableCount startTime lastPosition
      stableChecks calls clock sleeps fuel h1 h2
    simp only [stopMovingGo, if_pos h1, h2]
  · intro ε attrFetch timeout interval stableCount startTime fuel h1 h2
    have h3 : startTime - startTime < timeout := by omega
    simp only [waitForElementToStopMoving, stopMovingGo, if_pos h3, h1]
    simp

/-- Witness for C2 at concrete inputs, exercising a throwing attribute
fetch. -/
theorem C2_witness :
    (stopMovingGo (fun _ => none) 200 5000 3 0 none 0 0 0 [] 4 =
      some ⟨.ok (), 0 + fallBackTimeout, 0 + 1, [] ++ [fallBackTimeout]⟩) ∧
    (waitForElementToStopMoving throwingFetch 5000 200 3 0 4 =
      some ⟨.ok (), 0 + fallBackTimeout, 1, [fallBackTimeout]⟩) :=
  ⟨C2_null_sample_resolves_after_fallback.1 (fun _ => none) 200 5000 3 0 none
      0 0 0 [] 3 (by decide) rfl,
    C2_null_sample_resolves_after_fallback.2 Unit throwingFetch 5000 200 3 0
      3 rfl (by decide)⟩

/-- An attributes fetch whose positions alternate `(1,1), (2,2), (1,1),
(2,2), ...` — its first three samples are `[(1,1), (2,2), (1,1)]`. -/
def alternatingFetch : Nat → Except Empty ElementAttributes :=
  fun n =>
    if n % 2 = 0 then .ok ⟨some ⟨some 1, some 1⟩⟩
    else .ok ⟨some ⟨some 2, some 2⟩⟩

theorem stopMovingGo_available_outcomes
    (sample : Nat → Option (Int × Int)) (interval timeout : Int)
    (stableCount : Nat) (startTime : Int)
    (hsample : ∀ n, (sample n).isSome = true) :
    ∀ (fuel : Nat) (lastPosition : Option (Int × Int))
      (stableChecks calls : Nat) (clock : Int) (sleeps : List Int)
      (res : PollRun Empty),
      stopMovingGo sample interval timeout stableCount startTime lastPosition
          stableChecks calls clock sleeps fuel = some res →
      (res.outcome = .ok () ∧ res.clock - startTime < timeout) ∨
      (res.outcome = .error (.err notStableMessage) ∧
        timeout ≤ res.clock - startTime) := by
  intro fuel
  induction fuel with
  | zero =>
    intro lp s calls clock sleeps res h
    exact absurd h (by simp [stopMovingGo])
  | succ n ih =>
    intro lp s calls clock sleeps res h
    simp only [stopMovingGo] at h
    by_cases hd : clock - startTime < timeout
    · rw [if_pos hd] at h
      cases hs : sample calls with
      | none =>
        have hcontra := hsample calls
        rw [hs] at hcontra
        simp at hcontra
      | some p =>
        simp only [hs] at h
        by_cases hsame : samePosition p lp = true
        · rw [if_pos hsame] at h
          by_cases hc : stableCount ≤ s + 1
          · rw [if_pos hc] at h
            obtain rfl := (Option.some.inj h).symm
            exact Or.inl ⟨rfl, hd⟩
          · rw [if_neg hc] at h
            exact ih lp (s + 1) (calls + 1) (clock + interval) _ res h
        · rw [if_neg hsame] at h
          exact ih (some p) 1 (calls + 1) (clock + interval) _ res h
    · rw [if_neg hd] at h
      obtain rfl := (Option.some.inj h).symm
      refine Or.inr ⟨rfl, ?_⟩
      simp
      omega

/-- C9: when every sample of `waitForElementToStopMoving` is available, a
terminating run either resolves successfully strictly before the deadline
(via the stability count) or throws the `Element did not become stable in
time` error with the deadline elapsed — there is no silent
success-on-timeout path; in particular, the alternating sample sequence
`[(1,1), (2,2), (1,1), ...]` with `stableCount = 3` and a timeout of 700 ms,
shorter than 4 intervals of 200 ms, throws that error. -/
theorem C9_all_available_timeout_throws :
    (∀ (ε : Type) (attrFetch : Nat → Except ε ElementAttributes)
      (timeout interval : Int) (stableCount : Nat) (startTime : Int)
      (fuel : Nat) (res : PollRun Empty),
      (∀ n, (getPosition (attrFetch n)).isSome = true) →
      waitForElementToStopMoving attrFetch timeout interval stableCount
          startTime fuel = some res →
      (res.outcome = .ok () ∧ res.clock - startTime < timeout) ∨
      (res.outcome = .error (.err notStableMessage) ∧
        timeout ≤ res.clock - startTime)) ∧
    (waitForElementToStopMoving alternatingFetch 700 200 3 0 10 =
      some ⟨.error (.err notStableMessage), 800, 4, [200, 200, 200, 200]⟩) := by
  constructor
  · intro ε attrFetch timeout interval stableCount startTime fuel res
      hsample h
    exact stopMovingGo_available_outcomes (fun n => getPosition (attrFetch n))
      interval timeout stableCount startTime hsample fuel none 0 0 startTime
      [] res h
  · rfl

/-- Witness for C9's quantified part at the concrete alternating input. -/
theorem C9_witness :
    ((⟨.error (.err notStableMessage), 800, 4,
        [200, 200, 200, 200]⟩ : PollRun Empty).outcome = .ok () ∧
      (⟨.error (.err notStableMessage), 800, 4,
        [200, 200, 200, 200]⟩ : PollRun Empty).clock - 0 < 700) ∨
    ((⟨.error (.err notStableMessage), 800, 4,
        [200, 200, 200, 200]⟩ : PollRun Empty).outcome =
        .error (.err notStableMessage) ∧
      (700 : Int) ≤ (⟨.error (.err notStableMessage), 800, 4,
        [200, 200, 200, 200]⟩ : PollRun Empty).clock - 0) :=
  C9_all_available_timeout_throws.1 Empty alternatingFetch 700 200 3 0 10
    ⟨.error (.err notStableMessage), 800, 4, [200, 200, 200, 200]⟩
    (fun n => by
      by_cases h : n % 2 = 0 <;> simp [alternatingFetch, getPosition, h])
    rfl

/-- An attributes fetch whose position drifts: the n-th sample is `(n, 0)`,
so no two consecutive samples are equal. -/
def driftFetch : Nat → Except Empty ElementAttributes :=
  fun n => .ok ⟨some ⟨some (Int.ofNat n), some 0⟩⟩

/-- An attributes fetch whose position is always `(1, 1)`. -/
def constFetch : Nat → Except Empty ElementAttributes :=
  fun _ => .ok ⟨some ⟨some 1, some 1⟩⟩

/-- A sample sequence whose position is always `(1, 1)`. -/
def constSample : Nat → Option (Int × Int) := fun _ => some (1, 1)

/-- An attributes fetch whose position is `(9, 9)` on the first fetch and
`(1, 1)` afterwards. -/
def shiftFetch : Nat → Except Empty ElementAttributes :=
  fun n =>
    if n = 0 then .ok ⟨some ⟨some 9, some 9⟩⟩
    else .ok ⟨some ⟨some 1, some 1⟩⟩

theorem stopMovingGo_succ (sample : Nat → Option (Int × Int))
    (interval timeout : Int) (stableCount : Nat) (startTime : Int)
    (lastPosition : Option (Int × Int)) (stableChecks calls : Nat)
    (clock : Int) (sleeps : List Int) (fuel : Nat) :
    stopMovingGo sample interval timeout stableCount startTime lastPosition
        stableChecks calls clock sleeps (fuel + 1) =
      if clock - startTime < timeout then
        match sample calls with
        | none =>
          some ⟨.ok (), clock + fallBackTimeout, calls + 1,
            sleeps ++ [fallBackTimeout]⟩
        | some position =>
          if samePosition position lastPosition then
            if stableCount ≤ stableChecks + 1 then
              some ⟨.ok (), clock, calls + 1, sleeps⟩
            else
              stopMovingGo sample interval timeout stableCount startTime
                lastPosition (stableChecks + 1) (calls + 1)
                (clock + interval) (sleeps ++ [interval]) fuel
          else
            stopMovingGo sample interval timeout stableCount startTime
              (some position) 1 (calls + 1) (clock + interval)
              (sleeps ++ [interval]) fuel
      else
        some ⟨.error (.err notStableMessage), clock, calls, sleeps⟩ := rfl

theorem stopMovingGo_match_run (sample : Nat → Option (Int × Int))
    (interval timeout : Int) (stableCount : Nat) (startTime : Int)
    (p : Int × Int) :
    ∀ (m : Nat), 1 ≤ m →
      ∀ (s calls : Nat) (clock : Int) (sleeps : List Int) (fuel : Nat),
      s + m = stableCount →
      (∀ j, j < m → sample (calls + j) = some p) →
      (∀ j : Nat, j < m →
        clock + (j : Int) * interval - startTime < timeout) →
      stopMovingGo sample interval timeout stableCount startTime (some p) s
          calls clock sleeps (fuel + m) =
        some ⟨.ok (), clock + ((m : Int) - 1) * interval, calls + m,
          sleeps ++ List.replicate (m - 1) interval⟩ := by
  intro m
  induction m with
  | zero => intro h; exact absurd h (by decide)
  | succ m ih =>
    intro _ s calls clock sleeps fuel hsc hsamp hclk
    have hd : clock - startTime < timeout := by
      have h0 := hclk 0 (by omega)
      simpa using h0
    have hs0 : sample calls = some p := by simpa using hsamp 0 (by omega)
    have hsame : samePosition p (some p) = true := by simp [samePosition]
    show stopMovingGo sample interval timeout stableCount startTime (some p)
        s calls clock sleeps ((fuel + m) + 1) = _
    by_cases hm : m = 0
    · subst hm
      have hc : stableCount ≤ s + 1 := by omega
      rw [stopMovingGo_succ, if_pos hd]
      simp only [hs0]
      rw [if_pos hsame, if_pos hc]
      simp
    · obtain ⟨k, rfl⟩ : ∃ k, m = k + 1 := ⟨m - 1, by omega⟩
      have hc : ¬ (stableCount ≤ s + 1) := by omega
      rw [stopMovingGo_succ, if_pos hd]
      simp only [hs0]
      rw [if_pos hsame, if_neg hc]
      have hsamp2 : ∀ j, j < k + 1 → sample (calls + 1 + j) = some p := by
        intro j hj
        have h2 := hsamp (j + 1) (by omega)
        rwa [show calls + (j + 1) = calls + 1 + j by omega] at h2
      have hclk2 : ∀ j : Nat, j < k + 1 →
          clock + interval + (j : Int) * interval - startTime < timeout := by
        intro j hj
        have h2 := hclk (j + 1) (by omega)
        have hexp : ((j : Int) + 1) * interval =
            (j : Int) * interval + interval := by ring
        push_cast at h2
        rw [hexp] at h2
        linarith
      rw [ih (by omega) (s + 1) (calls + 1) (clock + interval)
        (sleeps ++ [interval]) fuel (by omega) hsamp2 hclk2]
      simp only [Option.some.injEq, PollRun.mk.injEq, Nat.add_sub_cancel,
        List.append_assoc, List.replicate_succ, List.singleton_append,
        true_and, and_true]
      constructor
      · push_cast
        ring
      · omega

theorem stopMovingGo_initial_run (sample : Nat → Option (Int × Int))
    (interval timeout : Int) (stableCount : Nat) (startTime : Int)
    (p : Int × Int) (hsc : 2 ≤ stableCount)
    (hsamp : ∀ j, j < stableCount → sample j = some p)
    (hclk : ∀ j : Nat, j < stableCount → (j : Int) * interval < timeout)
    (fuel : Nat) :
    stopMovingGo sample interval timeout stableCount startTime none 0 0
        startTime [] (fuel + stableCount) =
      some ⟨.ok (), startTime + ((stableCount : Int) - 1) * interval,
        stableCount, List.replicate (stableCount - 1) interval⟩ := by
  obtain ⟨k, rfl⟩ : ∃ k, stableCount = k + 2 := ⟨stableCount - 2, by omega⟩
  have hd : startTime - startTime < timeout := by
    have h0 := hclk 0 (by omega)
    push_cast at h0
    linarith
  have hs0 : sample 0 = some p := hsamp 0 (by omega)
  have hsame : samePosition p none = false := rfl
  show stopMovingGo sample interval timeout (k + 2) startTime none 0 0
      startTime [] ((fuel + (k + 1)) + 1) = _
  rw [stopMovingGo_succ, if_pos hd]
  simp only [hs0]
  rw [if_neg (by simp [hsame])]
  simp only [zero_add, List.nil_append]
  have hsamp2 : ∀ j, j < k + 1 → sample (1 + j) = some p := by
    intro j hj
    have h2 := hsamp (j + 1) (by omega)
    rwa [show j + 1 = 1 + j by omega] at h2
  have hclk2 : ∀ j : Nat, j < k + 1 →
      startTime + interval + (j : Int) * interval - startTime < timeout := by
    intro j hj
    have h2 := hclk (j + 1) (by omega)
    have hexp : ((j : Int) + 1) * interval =
        (j : Int) * interval + interval := by ring
    push_cast at h2
    rw [hexp] at h2
    linarith
  rw [stopMovingGo_match_run sample interval timeout (k + 2) startTime p
    (k + 1) (by omega) 1 1 (startTime + interval) [interval] fuel (by omega)
    hsamp2 hclk2]
  simp only [Option.some.injEq, PollRun.mk.injEq, Nat.add_sub_cancel,
    show k + 2 - 1 = k + 1 by omega, List.replicate_succ,
    List.singleton_append, true_and, and_true]
  constructor
  · push_cast
    ring
  · omega

theorem stopMovingGo_match_resolves (sample : Nat → Option (Int × Int))
    (interval timeout : Int) (stableCount : Nat) (startTime : Int)
    (p : Int × Int) :
    ∀ (m : Nat), 1 ≤ m →
      ∀ (q : Int × Int) (s calls : Nat) (clock : Int) (sleeps : List Int),
      samePosition p (some q) = true →
      stableCount ≤ s + m →
      (∀ j, j < m → sample (calls + j) = some p) →
      (∀ j : Nat, j < m →
        clock + (j : Int) * interval - startTime < timeout) →
      ∃ (fuel : Nat) (res : PollRun Empty),
        stopMovingGo sample interval timeout stableCount startTime (some q)
            s calls clock sleeps fuel = some res ∧
          res.outcome = .ok () := by
  intro m
  induction m with
  | zero => intro h; exact absurd h (by decide)
  | succ m ih =>
    intro _ q s calls clock sleeps hq hcnt hsamp hclk
    have hd : clock - startTime < timeout := by simpa using hclk 0 (by omega)
    have hs0 : sample calls = some p := by simpa using hsamp 0 (by omega)
    by_cases hc : stableCount ≤ s + 1
    · refine ⟨1, ⟨.ok (), clock, calls + 1, sleeps⟩, ?_, rfl⟩
      rw [stopMovingGo_succ, if_pos hd]
      simp only [hs0]
      rw [if_pos hq, if_pos hc]
    · have hm : 1 ≤ m := by omega
      have hsamp2 : ∀ j, j < m → sample (calls + 1 + j) = some p := by
        intro j hj
        have h2 := hsamp (j + 1) (by omega)
        rwa [show calls + (j + 1) = calls + 1 + j by omega] at h2
      have hclk2 : ∀ j : Nat, j < m →
          clock + interval + (j : Int) * interval - startTime < timeout := by
        intro j hj
        have h2 := hclk (j + 1) (by omega)
        have hexp : ((j : Int) + 1) * interval =
            (j : Int) * interval + interval := by ring
        push_cast at h2
        rw [hexp] at h2
        linarith
      obtain ⟨fuel, res, hrun, hok⟩ := ih hm q (s + 1) (calls + 1)
        (clock + interval) (sleeps ++ [interval]) hq (by omega) hsamp2 hclk2
      refine ⟨fuel + 1, res, ?_, hok⟩
      rw [stopMovingGo_succ, if_pos hd]
      simp only [hs0]
      rw [if_pos hq, if_neg hc]
      exact hrun

theorem stopMovingGo_run_resolves (sample : Nat → Option (Int × Int))
    (interval timeout : Int) (stableCount : Nat) (startTime : Int)
    (p : Int × Int) (hsc : 2 ≤ stableCount)
    (lastPosition : Option (Int × Int)) (s calls : Nat) (clock : Int)
    (sleeps : List Int)
    (hsamp : ∀ j, j < stableCount → sample (calls + j) = some p)
    (hclk : ∀ j : Nat, j < stableCount →
      clock + (j : Int) * interval - startTime < timeout) :
    ∃ (fuel : Nat) (res : PollRun Empty),
      stopMovingGo sample interval timeout stableCount startTime
          lastPosition s calls clock sleeps fuel = some res ∧
        res.outcome = .ok () := by
  have hd : clock - startTime < timeout := by simpa using hclk 0 (by omega)
  have hs0 : sample calls = some p := by simpa using hsamp 0 (by omega)
  by_cases hq : samePosition p lastPosition = true
  · cases lastPosition with
    | none => exact absurd hq (by simp [samePosition])
    | some q =>
      exact stopMovingGo_match_resolves sample interval timeout stableCount
        startTime p stableCount (by omega) q s calls clock sleeps hq
        (by omega) hsamp hclk
  · obtain ⟨k, hk⟩ : ∃ k, stableCount = k + 2 := ⟨stableCount - 2, by omega⟩
    have hsamp2 : ∀ j, j < k + 1 → sample (calls + 1 + j) = some p := by
      intro j hj
      have h2 := hsamp (j + 1) (by omega)
      rwa [show calls + (j + 1) = calls + 1 + j by omega] at h2
    have hclk2 : ∀ j : Nat, j < k + 1 →
        clock + interval + (j : Int) * interval - startTime < timeout := by
      intro j hj
      have h2 := hclk (j + 1) (by omega)
      have hexp : ((j : Int) + 1) * interval =
          (j : Int) * interval + interval := by ring
      push_cast at h2
      rw [hexp] at h2
      linarith
    have hself : samePosition p (some p) = true := by simp [samePosition]
    obtain ⟨fuel, res, hrun, hok⟩ := stopMovingGo_match_resolves sample
      interval timeout stableCount startTime p (k + 1) (by omega) p 1
      (calls + 1) (clock + interval) (sleeps ++ [interval]) hself
      (by omega) hsamp2 hclk2
    refine ⟨fuel + 1, res, ?_, hok⟩
    rw [stopMovingGo_succ, if_pos hd]
    simp only [hs0]
    rw [if_neg hq]
    exact hrun

theorem stopMovingGo_prefix_resolves (sample : Nat → Option (Int × Int))
    (interval timeout : Int) (stableCount : Nat) (startTime : Int)
    (p : Int × Int) (hsc : 2 ≤ stableCount) :
    ∀ (i : Nat) (lastPosition : Option (Int × Int)) (s calls : Nat)
      (clock : Int) (sleeps : List Int),
      (∀ j, j < i → (sample (calls + j)).isSome = true) →
      (∀ j, j < stableCount → sample (calls + i + j) = some p) →
      (∀ j : Nat, j < i + stableCount →
        clock + (j : Int) * interval - startTime < timeout) →
      ∃ (fuel : Nat) (res : PollRun Empty),
        stopMovingGo sample interval timeout stableCount startTime
            lastPosition s calls clock sleeps fuel = some res ∧
          res.outcome = .ok () := by
  intro i
  induction i with
  | zero =>
    intro lastPosition s calls clock sleeps _ hsamp hclk
    simp only [Nat.add_zero] at hsamp
    simp only [Nat.zero_add] at hclk
    exact stopMovingGo_run_resolves sample interval timeout stableCount
      startTime p hsc lastPosition s calls clock sleeps hsamp hclk
  | succ i ih =>
    intro lastPosition s calls clock sleeps havail hsamp hclk
    have hd : clock - startTime < timeout := by simpa using hclk 0 (by omega)
    have h0 : (sample calls).isSome = true := by simpa using havail 0 (by omega)
    obtain ⟨r, hr⟩ := Option.isSome_iff_exists.1 h0
    have havail2 : ∀ j, j < i → (sample (calls + 1 + j)).isSome = true := by
      intro j hj
      have h2 := havail (j + 1) (by omega)
      rwa [show calls + (j + 1) = calls + 1 + j by omega] at h2
    have hsamp2 : ∀ j, j < stableCount →
        sample (calls + 1 + i + j) = some p := by
      intro j hj
      have h2 := hsamp j hj
      rwa [show calls + (i + 1) + j = calls + 1 + i + j by omega] at h2
    have hclk2 : ∀ j : Nat, j < i + stableCount →
        clock + interval + (j : Int) * interval - startTime < timeout := by
      intro j hj
      have h2 := hclk (j + 1) (by omega)
      have hexp : ((j : Int) + 1) * interval =
          (j : Int) * interval + interval := by ring
      push_cast at h2
      rw [hexp] at h2
      linarith
    by_cases hq : samePosition r lastPosition = true
    · by_cases hc : stableCount ≤ s + 1
      · refine ⟨1, ⟨.ok (), clock, calls + 1, sleeps⟩, ?_, rfl⟩
        rw [stopMovingGo_succ, if_pos hd]
        simp only [hr]
        rw [if_pos hq, if_pos hc]
      · obtain ⟨fuel, res, hrun, hok⟩ := ih lastPosition (s + 1) (calls + 1)
          (clock + interval) (sleeps ++ [interval]) havail2 hsamp2 hclk2
        refine ⟨fuel + 1, res, ?_, hok⟩
        rw [stopMovingGo_succ, if_pos hd]
        simp only [hr]
        rw [if_pos hq, if_neg hc]
        exact hrun
    · obtain ⟨fuel, res, hrun, hok⟩ := ih (some r) 1 (calls + 1)
        (clock + interval) (sleeps ++ [interval]) havail2 hsamp2 hclk2
      refine ⟨fuel + 1, res, ?_, hok⟩
      rw [stopMovingGo_succ, if_pos hd]
      simp only [hr]
      rw [if_neg hq]
      exact hrun

/-- Counterexample to C4 as stated: with `stableCount = 1` the very first
sample sets `stableChecks = 1`, which already reaches `stableCount`, yet the
call does not resolve there — the success check only runs after an increment
on a matching sample.  With positions drifting every 200 ms, a 1000 ms
timeout and `stableCount = 1`, every sample is the sole member of a run of
`stableCount` consecutive equal available samples before the deadline, yet
the call throws the stability timeout error instead of resolving
successfully. -/
theorem C4_counterexample :
    waitForElementToStopMoving driftFetch 1000 200 1 0 10 =
      some ⟨.error (.err notStableMessage), 1000, 5,
        [200, 200, 200, 200, 200]⟩ := rfl

/-- C4 (amended): with available samples, the first sample (no baseline)
becomes the baseline with `stableChecks = 1`; a sample differing from the
baseline resets `stableChecks` to 1 and becomes the new baseline; a sample
equal to the baseline increments `stableChecks`, and the call resolves
successfully exactly when the incremented count reaches `stableCount`
(so for `stableCount ≤ 1` the first sample alone does not resolve the
call); hence, for `stableCount ≥ 2`, a run of `stableCount` consecutive
equal available samples polled before the deadline — whether at the start
of the call (with the exact resolution clock, call count and suspension
trace) or after any prefix of available samples — makes the call resolve
successfully. -/
theorem C4_stability_counting :
    (∀ (sample : Nat → Option (Int × Int)) (interval timeout : Int)
      (stableCount : Nat) (startTime clock : Int) (stableChecks calls : Nat)
      (sleeps : List Int) (fuel : Nat) (p : Int × Int),
      clock - startTime < timeout → sample calls = some p →
      stopMovingGo sample interval timeout stableCount startTime none
          stableChecks calls clock sleeps (fuel + 1) =
        stopMovingGo sample interval timeout stableCount startTime (some p)
          1 (calls + 1) (clock + interval) (sleeps ++ [interval]) fuel) ∧
    (∀ (sample : Nat → Option (Int × Int)) (interval timeout : Int)
      (stableCount : Nat) (startTime clock : Int) (stableChecks calls : Nat)
      (sleeps : List Int) (fuel : Nat) (p q : Int × Int),
      clock - startTime < timeout → sample calls = some p →
      samePosition p (some q) = false →
      stopMovingGo sample interval timeout stableCount startTime (some q)
          stableChecks calls clock sleeps (fuel + 1) =
        stopMovingGo sample interval timeout stableCount startTime (some p)
          1 (calls + 1) (clock + interval) (sleeps ++ [interval]) fuel) ∧
    (∀ (sample : Nat → Option (Int × Int)) (interval timeout : Int)
      (stableCount : Nat) (startTime clock : Int) (stableChecks calls : Nat)
      (sleeps : List Int) (fuel : Nat) (p q : Int × Int),
      clock - startTime < timeout → sample calls = some p →
      samePosition p (some q) = true →
      stopMovingGo sample interval timeout stableCount startTime (some q)
          stableChecks calls clock sleeps (fuel + 1) =
        (if stableCount ≤ stableChecks + 1 then
          some ⟨.ok (), clock, calls + 1, sleeps⟩
        else
          stopMovingGo sample interval timeout stableCount startTime (some q)
            (stableChecks + 1) (calls + 1) (clock + interval)
            (sleeps ++ [interval]) fuel)) ∧
    (∀ (ε : Type) (attrFetch : Nat → Except ε ElementAttributes)
      (timeout interval : Int) (stableCount : Nat) (startTime : Int)
      (p : Int × Int) (fuel : Nat),
      2 ≤ stableCount →
      (∀ j, j < stableCount → getPosition (attrFetch j) = some p) →
      (∀ j : Nat, j < stableCount → (j : Int) * interval < timeout) →
      waitForElementToStopMoving attrFetch timeout interval stableCount
          startTime (fuel + stableCount) =
        some ⟨.ok (), startTime + ((stableCount : Int) - 1) * interval,
          stableCount, List.replicate (stableCount - 1) interval⟩) ∧
    (∀ (ε : Type) (attrFetch : Nat → Except ε ElementAttributes)
      (timeout interval : Int) (stableCount : Nat) (startTime : Int)
      (p : Int × Int) (i : Nat),
      2 ≤ stableCount →
      (∀ j, j < i → (getPosition (attrFetch j)).isSome = true) →
      (∀ j, j < stableCount → getPosition (attrFetch (i + j)) = some p) →
      (∀ j : Nat, j < i + stableCount → (j : Int) * interval < timeout) →
      ∃ (fuel : Nat) (res : PollRun Empty),
        waitForElementToStopMoving attrFetch timeout interval stableCount
            startTime fuel = some res ∧
          res.outcome = .ok ()) := by
  refine ⟨?_, ?_, ?_, ?_, ?_⟩
  · intro sample interval timeout stableCount startTime clock stableChecks
      calls sleeps fuel p h1 h2
    have hsame : samePosition p none = false := rfl
    simp only [stopMovingGo, if_pos h1, h2, hsame, Bool.false_eq_true,
      if_false]
  · intro sample interval timeout stableCount startTime clock stableChecks
      calls sleeps fuel p q h1 h2 hsame
    simp only [stopMovingGo, if_pos h1, h2, hsame, Bool.false_eq_true,
      if_false]
  · intro sample interval timeout stableCount startTime clock stableChecks
      calls sleeps fuel p q h1 h2 hsame
    simp only [stopMovingGo, if_pos h1, h2, hsame, if_true]
  · intro ε attrFetch timeout interval stableCount startTime p fuel hsc
      hsamp hclk
    exact stopMovingGo_initial_run (fun n => getPosition (attrFetch n))
      interval timeout stableCount startTime p hsc hsamp hclk fuel
  · intro ε attrFetch timeout interval stableCount startTime p i hsc havail
      hsamp hclk
    refine stopMovingGo_prefix_resolves (fun n => getPosition (attrFetch n))
      interval timeout stableCount startTime p hsc i none 0 0 startTime []
      ?_ ?_ ?_
    · intro j hj
      simpa using havail j hj
    · intro j hj
      simpa using hsamp j hj
    · intro j hj
      have h2 := hclk j hj
      have hcancel : startTime + (j : Int) * interval - startTime =
          (j : Int) * interval := by ring
      rw [hcancel]
      exact h2

/-- Witness for the amended C4 at concrete inputs. -/
theorem C4_witness :
    (stopMovingGo constSample 200 5000 3 0 none 0 0 0 [] 4 =
      stopMovingGo constSample 200 5000 3 0 (some (1, 1)) 1 1 200 [200] 3) ∧
    (stopMovingGo constSample 200 5000 3 0 (some (2, 2)) 1 0 0 [] 4 =
      stopMovingGo constSample 200 5000 3 0 (some (1, 1)) 1 1 200 [200] 3) ∧
    (stopMovingGo constSample 200 5000 3 0 (some (1, 1)) 1 0 0 [] 4 =
      (if 3 ≤ 1 + 1 then some ⟨.ok (), 0, 0 + 1, []⟩
      else stopMovingGo constSample 200 5000 3 0 (some (1, 1)) 2 1 200
        [200] 3)) ∧
    (waitForElementToStopMoving constFetch 5000 200 3 0 (2 + 3) =
      some ⟨.ok (), 0 + ((3 : Int) - 1) * 200, 3,
        List.replicate 2 200⟩) ∧
    (∃ (fuel : Nat) (res : PollRun Empty),
      waitForElementToStopMoving shiftFetch 5000 200 3 0 fuel = some res ∧
        res.outcome = .ok ()) :=
  ⟨C4_stability_counting.1 constSample 200 5000 3 0 0 0 0 [] 3 (1, 1)
      (by decide) rfl,
    C4_stability_counting.2.1 constSample 200 5000 3 0 0 1 0 [] 3 (1, 1)
      (2, 2) (by decide) rfl (by decide),
    C4_stability_counting.2.2.1 constSample 200 5000 3 0 0 1 0 [] 3 (1, 1)
      (1, 1) (by decide) rfl (by decide),
    C4_stability_counting.2.2.2.1 Empty constFetch 5000 200 3 0 (1, 1) 2
      (by decide) (fun j hj => rfl) (by intro j hj; omega),
    C4_stability_counting.2.2.2.2 Empty shiftFetch 5000 200 3 0 (1, 1) 1
      (by decide)
      (by intro j hj; interval_cases j; decide)
      (by intro j hj; interval_cases j <;> decide)
      (by intro j hj; omega)⟩

end Utilities
